import Mathlib

/-!
Verification of the probe LSP-daemon client protocol, as implemented by
`src/examples/lsp-client-example.py`, against its specification.

The embedding models:
- JSON values (`Json`) as the target of Python's `json.dumps`/`json.loads`;
- the tagged request/response Message variants the client constructs and
  consumes, with `encode`/`decode` at the JSON-value level;
- the 4-byte big-endian length-prefixed framing of `_send_request`;
- the `_recv_exact` loop over an abstract socket;
- socket-path resolution (`_get_socket_path`), the `connect` retry loop,
  the Connect handshake, and the `get_logs` response handling;
- spec-modelled parts whose daemon-side implementation is not in the
  visible sources (frame-size limit, language-server pool).
-/

namespace Probe

/-- JSON values, the result of Python's `json.loads` and the argument of
`json.dumps` in the client: null, booleans, integers, strings, arrays and
objects (field lists). -/
inductive Json where
  | null : Json
  | bool (b : Bool) : Json
  | num (n : Int) : Json
  | str (s : String) : Json
  | arr (xs : List Json) : Json
  | obj (fields : List (String × Json)) : Json

/-- Field lookup in a JSON object, mirroring Python's `dict.get(key)`:
the value bound to the first matching key, or `none`. -/
def lookupField (fields : List (String × Json)) (k : String) : Option Json :=
  match fields with
  | [] => none
  | (k2, v) :: rest => if k2 = k then some v else lookupField rest k

/-- Request variants of the Message tagged union: the requests the client
builds in `connect`, `get_status`, `ping`, `get_logs`, `get_call_hierarchy`,
plus `Shutdown{request_id}` from the protocol schema. -/
inductive Request where
  | connect (client_id : String)
  | status (request_id : String)
  | ping (request_id : String)
  | getLogs (request_id : String) (lines : Int)
  | callHierarchy (request_id : String) (file_path : String) (line : Int)
      (column : Int) (workspace_hint : Option String)
  | shutdown (request_id : String)

/-- Response variants of the Message tagged union, with the field names the
client reads: `daemon_version`, `status`, `entries`, `result`, `error`. -/
inductive Response where
  | connected (daemon_version : String)
  | status (status : Json)
  | pong
  | logs (entries : List Json)
  | callHierarchy (result : Json)
  | error (error : String)

/-- Serialization of a request to a JSON object with a `type` tag plus the
variant fields, exactly the dict literals the client passes to
`json.dumps` (field order included). -/
def encodeRequest : Request → Json
  | .connect cid =>
      .obj [("type", .str "Connect"), ("client_id", .str cid)]
  | .status rid =>
      .obj [("type", .str "Status"), ("request_id", .str rid)]
  | .ping rid =>
      .obj [("type", .str "Ping"), ("request_id", .str rid)]
  | .getLogs rid lines =>
      .obj [("type", .str "GetLogs"), ("request_id", .str rid),
            ("lines", .num lines)]
  | .callHierarchy rid fp line col wh =>
      .obj [("type", .str "CallHierarchy"), ("request_id", .str rid),
            ("file_path", .str fp), ("line", .num line),
            ("column", .num col),
            ("workspace_hint", match wh with | none => .null | some s => .str s)]
  | .shutdown rid =>
      .obj [("type", .str "Shutdown"), ("request_id", .str rid)]

/-- Serialization of a response to a JSON object with a `type` tag plus the
variant fields named as the client reads them. -/
def encodeResponse : Response → Json
  | .connected v => .obj [("type", .str "Connected"), ("daemon_version", .str v)]
  | .status st => .obj [("type", .str "Status"), ("status", st)]
  | .pong => .obj [("type", .str "Pong")]
  | .logs es => .obj [("type", .str "Logs"), ("entries", .arr es)]
  | .callHierarchy r => .obj [("type", .str "CallHierarchy"), ("result", r)]
  | .error e => .obj [("type", .str "Error"), ("error", .str e)]

/-- Parse a request back out of its JSON form: read the `type` tag and the
variant fields; an unknown tag or a missing/badly-typed field fails. -/
def decodeRequest (j : Json) : Option Request :=
  match j with
  | .obj fields =>
    match lookupField fields "type" with
    | some (.str tag) =>
      if tag = "Connect" then
        match lookupField fields "client_id" with
        | some (.str cid) => some (.connect cid)
        | _ => none
      else if tag = "Status" then
        match lookupField fields "request_id" with
        | some (.str rid) => some (.status rid)
        | _ => none
      else if tag = "Ping" then
        match lookupField fields "request_id" with
        | some (.str rid) => some (.ping rid)
        | _ => none
      else if tag = "GetLogs" then
        match lookupField fields "request_id", lookupField fields "lines" with
        | some (.str rid), some (.num n) => some (.getLogs rid n)
        | _, _ => none
      else if tag = "CallHierarchy" then
        match lookupField fields "request_id", lookupField fields "file_path",
              lookupField fields "line", lookupField fields "column",
              lookupField fields "workspace_hint" with
        | some (.str rid), some (.str fp), some (.num l), some (.num c), some w =>
          match w with
          | .null => some (.callHierarchy rid fp l c none)
          | .str s => some (.callHierarchy rid fp l c (some s))
          | _ => none
        | _, _, _, _, _ => none
      else if tag = "Shutdown" then
        match lookupField fields "request_id" with
        | some (.str rid) => some (.shutdown rid)
        | _ => none
      else none
    | _ => none
  | _ => none

/-- Parse a response back out of its JSON form, by tag dispatch as the
client does (`response.get("type") == ...`). -/
def decodeResponse (j : Json) : Option Response :=
  match j with
  | .obj fields =>
    match lookupField fields "type" with
    | some (.str tag) =>
      if tag = "Connected" then
        match lookupField fields "daemon_version" with
        | some (.str v) => some (.connected v)
        | _ => none
      else if tag = "Status" then
        match lookupField fields "status" with
        | some st => some (.status st)
        | _ => none
      else if tag = "Pong" then some .pong
      else if tag = "Logs" then
        match lookupField fields "entries" with
        | some (.arr es) => some (.logs es)
        | _ => none
      else if tag = "CallHierarchy" then
        match lookupField fields "result" with
        | some r => some (.callHierarchy r)
        | _ => none
      else if tag = "Error" then
        match lookupField fields "error" with
        | some (.str e) => some (.error e)
        | _ => none
      else none
    | _ => none
  | _ => none

/-- The 4-byte big-endian length prefix `struct.pack(">I", n)` computed in
`_send_request`, as a list of byte values (defined for `n < 2 ^ 32`, the
range `struct.pack` accepts). -/
def pack_be32 (n : Nat) : List Nat :=
  [n / 2 ^ 24 % 256, n / 2 ^ 16 % 256, n / 2 ^ 8 % 256, n % 256]

/-- Big-endian interpretation of 4 bytes, `struct.unpack(">I", ...)` in
`_send_request`. -/
def unpack_be32 (b0 b1 b2 b3 : Nat) : Nat :=
  ((b0 * 256 + b1) * 256 + b2) * 256 + b3

/-- Big-endian interpretation of the first 4 bytes of a stream. -/
def unpackPrefix : List Nat → Nat
  | b0 :: b1 :: b2 :: b3 :: _ => unpack_be32 b0 b1 b2 b3
  | _ => 0

/-- The frame bytes `_send_request` writes for a serialized-Message payload:
`length + encoded`, the 4-byte big-endian length prefix followed by the
payload bytes. -/
def sendFrame (payload : List Nat) : List Nat :=
  pack_be32 payload.length ++ payload

/-- Frame parsing as `_send_request` receives: read exactly 4 prefix bytes,
interpret them as a big-endian length `n`, then read exactly `n` payload
bytes; the unparsed remainder of the stream is returned alongside. Fails if
the stream is too short. -/
def parseFrame (s : List Nat) : Option (List Nat × List Nat) :=
  match s with
  | b0 :: b1 :: b2 :: b3 :: rest =>
    let n := unpack_be32 b0 b1 b2 b3
    if rest.length < n then none else some (rest.take n, rest.drop n)
  | _ => none

/-- Remove every trailing `'/'` character, Python's `temp_dir.rstrip('/')`
in `_get_socket_path`. -/
def rstripSlash (s : String) : String :=
  String.mk ((s.data.reverse.dropWhile fun c => c == '/').reverse)

/-- Platform-specific socket path, `_get_socket_path`: the fixed named-pipe
path on Windows; `$TMPDIR` (default `/tmp`) with trailing slashes stripped
plus `/lsp-daemon.sock` on POSIX. `tmpdir` is `os.environ.get("TMPDIR")`. -/
def get_socket_path (isWindows : Bool) (tmpdir : Option String) : String :=
  if isWindows then "\\\\.\\pipe\\lsp-daemon"
  else rstripSlash (tmpdir.getD "/tmp") ++ "/lsp-daemon.sock"

/-- Outcome of one run of the client's `connect` retry loop: how many
connection attempts were made, the sleeps performed between attempts (in
seconds, in order), whether a daemon spawn was attempted, and whether a
transport connection was eventually established. -/
structure ConnectTrace where
  attempts : Nat
  sleeps : List Nat
  spawned : Bool
  connected : Bool
deriving DecidableEq, Repr

/-- The body of `connect`'s `for attempt in range(3)` loop: try the
attempt; on success stop; on `ConnectionRefusedError`/`FileNotFoundError`,
after attempt 0 spawn the daemon and sleep 3 seconds, after attempt 1
(`attempt < 2`) sleep 1 second, and after the last attempt re-raise
(`connected := false`). `ok a` tells whether attempt `a` succeeds. -/
def connectAttempts (ok : Nat → Bool) :
    List Nat → List Nat → Bool → Nat → ConnectTrace
  | [], sleeps, spawned, count => ⟨count, sleeps.reverse, spawned, false⟩
  | a :: rest, sleeps, spawned, count =>
    if ok a then ⟨count + 1, sleeps.reverse, spawned, true⟩
    else if a = 0 then connectAttempts ok rest (3 :: sleeps) true (count + 1)
    else if a < 2 then connectAttempts ok rest (1 :: sleeps) spawned (count + 1)
    else ⟨count + 1, sleeps.reverse, spawned, false⟩

/-- The `connect` retry loop over `range(3) = [0, 1, 2]`. -/
def connectRetry (ok : Nat → Bool) : ConnectTrace :=
  connectAttempts ok [0, 1, 2] [] false 0

/-- Result of the Connect handshake that `connect` runs after the transport
connection succeeds: the requests sent, whether the response was
`Connected`, whether an exception escaped, and the returned value. -/
structure HandshakeResult where
  sent : List Json
  connected_ok : Bool
  raised : Bool
  returned : Option String

/-- The handshake portion of `connect` (after the socket is connected):
send exactly one `Connect{client_id}` request; if the response's `type` is
`"Connected"` report success, otherwise print "Unexpected response"; in
both cases return the client_id normally (no exception is raised). -/
def connectHandshake (client_id : String)
    (response : List (String × Json)) : HandshakeResult :=
  let req := encodeRequest (.connect client_id)
  let ok := match lookupField response "type" with
    | some (.str t) => t == "Connected"
    | _ => false
  { sent := [req], connected_ok := ok, raised := false,
    returned := some client_id }

/-- The `_recv_exact(n)` accumulation loop over an abstract socket: while
fewer than `n` bytes are held, call `recv` for the missing count; a read
that yields zero bytes raises `ConnectionError` (modelled as `none`);
otherwise append the chunk and continue. `recv s k` returns the chunk read
and the successor socket state. -/
def recv_exact_loop {σ : Type} (recv : σ → Nat → List Nat × σ) (n : Nat)
    (s : σ) (data : List Nat) : Option (List Nat × σ) :=
  if h : data.length < n then
    if hc : (recv s (n - data.length)).1 = [] then none
    else
      recv_exact_loop recv n (recv s (n - data.length)).2
        (data ++ (recv s (n - data.length)).1)
  else some (data, s)
termination_by n - data.length
decreasing_by
  simp only [List.length_append]
  have hpos : 0 < (recv s (n - data.length)).1.length := List.length_pos.mpr hc
  omega

/-- `_recv_exact(n)` starting from the empty buffer `b''`. -/
def recv_exact {σ : Type} (recv : σ → Nat → List Nat × σ) (n : Nat)
    (s : σ) : Option (List Nat × σ) :=
  recv_exact_loop recv n s []

/-- A concrete socket whose queued chunks are served in order; `recv`
returns at most the requested number of bytes and an empty read once the
queue is exhausted (stream closed). -/
def demoRecv (chunks : List (List Nat)) (k : Nat) :
    List Nat × List (List Nat) :=
  match chunks with
  | [] => ([], [])
  | c :: rest => (c.take k, rest)

/-- The `request_id` field of an encoded request object, if any. -/
def requestIdOf (j : Json) : Option Json :=
  match j with
  | .obj fields => lookupField fields "request_id"
  | _ => none

/-- `get_logs` response handling: if the parsed response's `type` is
`"Logs"`, return its `entries` (defaulting to the empty list when the field
is absent, `response.get("entries", [])`); any other response — including
`Error` — yields the empty list, and no exception is raised (the function
is total). -/
def get_logs_handle (response : List (String × Json)) : Json :=
  match lookupField response "type" with
  | some (.str t) =>
    if t = "Logs" then (lookupField response "entries").getD (.arr [])
    else .arr []
  | _ => .arr []

/-- Modelled from the spec: the transport-error taxonomy of the daemon-side
framed transport (spec §4.1, §7); the daemon implementation itself is not
among the visible sources. -/
inductive FrameError where
  | connectionClosed
  | frameTooLarge
deriving DecidableEq

/-- Modelled from the spec: the daemon-side framed-transport `receive`
(spec §4.1), absent from the visible sources: read the 4-byte prefix
(`ConnectionClosed` if the stream ends first), interpret it as a big-endian
length, fail with `FrameTooLarge` when the declared length exceeds the
configured maximum `maxLen` — before consuming any payload byte — and
otherwise read exactly that many payload bytes (`ConnectionClosed` if the
stream ends first). -/
def receiveFrame (maxLen : Nat) (stream : List Nat) :
    Except FrameError (List Nat × List Nat) :=
  match stream with
  | b0 :: b1 :: b2 :: b3 :: rest =>
    let n := unpack_be32 b0 b1 b2 b3
    if maxLen < n then .error .frameTooLarge
    else if rest.length < n then .error .connectionClosed
    else .ok (rest.take n, rest.drop n)
  | _ => .error .connectionClosed

/-- Modelled from the spec: a language-server pool entry (spec §3) — the
supervised subprocess for one (language, workspace_root) key, identified
here by its spawn id; the pool implementation is not among the visible
sources. -/
structure LanguageServerEntry where
  language : String
  workspace_root : String
  serverId : Nat
deriving DecidableEq

/-- A (language, workspace_root) pool key. -/
abbrev PoolKey := String × String

/-- The pool's keyed map plus the next fresh subprocess id. -/
abbrev PoolState := List (PoolKey × LanguageServerEntry) × Nat

/-- Lookup in the pool's keyed map. -/
def lookupEntry (pool : List (PoolKey × LanguageServerEntry))
    (k : PoolKey) : Option LanguageServerEntry :=
  match pool with
  | [] => none
  | (k2, e) :: rest => if k2 = k then some e else lookupEntry rest k

/-- Modelled from the spec: `acquire(language, workspace_root)` (spec
§4.3): return the existing entry when present and healthy; when present
but unhealthy, spawn a replacement under the same key; when absent, spawn
a fresh entry under the key. Map mutation is serialized (single-writer,
spec §4.3/§5), so a concurrent execution is an arbitrary interleaving of
atomic `acquire` steps. -/
def acquire (healthy : Nat → Bool) (k : PoolKey) (st : PoolState) :
    PoolState :=
  match lookupEntry st.1 k with
  | some e =>
    if healthy e.serverId then st
    else
      (st.1.map fun kv =>
        if kv.1 = k then (kv.1, ⟨k.1, k.2, st.2⟩) else kv, st.2 + 1)
  | none => ((k, ⟨k.1, k.2, st.2⟩) :: st.1, st.2 + 1)

/-- An arbitrary serialized interleaving of `acquire` calls. -/
def runAcquires (healthy : Nat → Bool) (ops : List PoolKey)
    (st : PoolState) : PoolState :=
  match ops with
  | [] => st
  | k :: rest => runAcquires healthy rest (acquire healthy k st)

end Probe

namespace Probe

theorem pack_be32_unpack (n : Nat) (h : n < 2 ^ 32) :
    unpackPrefix (pack_be32 n) = n := by
  simp only [pack_be32, unpackPrefix, unpack_be32]
  omega

theorem head?_dropWhile_slash (l : List Char) :
    ∀ c ∈ (l.dropWhile fun c => c == '/').head?, c ≠ '/' := by
  induction l with
  | nil => simp
  | cons c t ih =>
    by_cases hc : c = '/'
    · simpa [List.dropWhile_cons, hc] using ih
    · simp [List.dropWhile_cons, hc]

theorem takeWhile_slash_replicate (l : List Char) :
    l.takeWhile (fun c => c == '/') =
      List.replicate (l.takeWhile fun c => c == '/').length '/' := by
  rw [List.eq_replicate_iff]
  refine ⟨rfl, fun b hb => ?_⟩
  simpa using List.mem_takeWhile_imp hb

/-- C2: every frame the client sends is exactly a 4-byte big-endian length
prefix followed by that many payload bytes, and frame parsing reads exactly
4 prefix bytes, interprets them big-endian, then reads exactly that many
payload bytes, leaving the rest of the stream untouched. -/
theorem framing_wire_format (payload rest : List Nat)
    (h : payload.length < 2 ^ 32) :
    sendFrame payload = pack_be32 payload.length ++ payload ∧
    (pack_be32 payload.length).length = 4 ∧
    (∀ b ∈ pack_be32 payload.length, b < 256) ∧
    unpackPrefix (sendFrame payload) = payload.length ∧
    parseFrame (sendFrame payload ++ rest) = some (payload, rest) := by
  have hn : unpack_be32 (payload.length / 2 ^ 24 % 256)
      (payload.length / 2 ^ 16 % 256) (payload.length / 2 ^ 8 % 256)
      (payload.length % 256) = payload.length := by
    simp only [unpack_be32]; omega
  refine ⟨rfl, rfl, ?_, ?_, ?_⟩
  · intro b hb
    simp only [pack_be32, List.mem_cons, List.not_mem_nil, or_false] at hb
    rcases hb with rfl | rfl | rfl | rfl <;> omega
  · simp only [sendFrame, pack_be32, List.cons_append, List.nil_append,
      unpackPrefix]
    exact hn
  · simp only [sendFrame, pack_be32, List.cons_append, List.nil_append,
      List.append_assoc, parseFrame, hn]
    rw [if_neg (Nat.not_lt.mpr (by simp only [List.length_append]; omega))]
    rw [List.take_left, List.drop_left]

/-- Witness for C2 at a concrete frame. -/
theorem framing_wire_format_witness :
    parseFrame (sendFrame [7, 8] ++ [5]) = some ([7, 8], [5]) :=
  (framing_wire_format [7, 8] [5] (by norm_num)).2.2.2.2

/-- C4: socket-path resolution is a deterministic function of platform and
environment: on Windows the fixed named-pipe path; on POSIX the value of
`$TMPDIR` (default `/tmp` when unset) with all trailing slashes removed,
followed by `/lsp-daemon.sock`. The stripped base never ends in `'/'`, and
it is the original directory minus a run of trailing slashes. -/
theorem socket_path_resolution (tmpdir : Option String) :
    get_socket_path true tmpdir = "\\\\.\\pipe\\lsp-daemon" ∧
    get_socket_path false tmpdir =
      rstripSlash (tmpdir.getD "/tmp") ++ "/lsp-daemon.sock" ∧
    (rstripSlash (tmpdir.getD "/tmp")).data.getLast? ≠ some '/' ∧
    (∃ k, (tmpdir.getD "/tmp").data =
      (rstripSlash (tmpdir.getD "/tmp")).data ++ List.replicate k '/') ∧
    get_socket_path false none = "/tmp/lsp-daemon.sock" := by
  refine ⟨rfl, rfl, ?_, ?_, rfl⟩
  · intro hcontra
    have hhead := head?_dropWhile_slash ((tmpdir.getD "/tmp").data.reverse)
    rw [show (rstripSlash (tmpdir.getD "/tmp")).data =
        ((tmpdir.getD "/tmp").data.reverse.dropWhile fun c => c == '/').reverse
        from rfl, List.getLast?_reverse] at hcontra
    exact hhead '/' (Option.mem_def.mpr hcontra) rfl
  · refine ⟨((tmpdir.getD "/tmp").data.reverse.takeWhile
      fun c => c == '/').length, ?_⟩
    have hsplit : (tmpdir.getD "/tmp").data.reverse =
        ((tmpdir.getD "/tmp").data.reverse.takeWhile fun c => c == '/') ++
        ((tmpdir.getD "/tmp").data.reverse.dropWhile fun c => c == '/') :=
      (List.takeWhile_append_dropWhile _ _).symm
    have hrev := congrArg List.reverse hsplit
    rw [List.reverse_reverse, List.reverse_append] at hrev
    have hrep : ((tmpdir.getD "/tmp").data.reverse.takeWhile
        fun c => c == '/').reverse =
        List.replicate ((tmpdir.getD "/tmp").data.reverse.takeWhile
          fun c => c == '/').length '/' := by
      conv_lhs => rw [takeWhile_slash_replicate]
      rw [List.reverse_replicate]
    conv_lhs => rw [hrev]
    rw [hrep]
    rfl

/-- Witness for C4: the default POSIX path at a concrete environment. -/
theorem socket_path_resolution_witness :
    get_socket_path false none = "/tmp/lsp-daemon.sock" :=
  (socket_path_resolution none).2.2.2.2

/-- C3 counterexample: when the daemon stays absent, the actual waits of
the `connect` retry loop are 3 seconds then 1 second — not an increasing
wait between successive attempts as the claim states. -/
theorem connect_backoff_not_increasing :
    (connectRetry fun _ => false).sleeps = [3, 1] ∧
    ¬ List.Chain' (· < ·) (connectRetry fun _ => false).sleeps := by
  refine ⟨rfl, ?_⟩
  rw [show (connectRetry fun _ => false).sleeps = [3, 1] from rfl]
  simp [List.chain'_cons]

/-- C3 (amended): `connect` makes at most 3 connection attempts, spawns the
daemon exactly after the first failed attempt, waits 3 seconds after the
first failure and 1 second after the second (a decreasing schedule), raises
only after all 3 attempts fail, and stops retrying on the first success. -/
theorem connect_retry_behaviour (ok : Nat → Bool) :
    (ok 0 = true → connectRetry ok = ⟨1, [], false, true⟩) ∧
    (ok 0 = false → ok 1 = true → connectRetry ok = ⟨2, [3], true, true⟩) ∧
    (ok 0 = false → ok 1 = false → ok 2 = true →
      connectRetry ok = ⟨3, [3, 1], true, true⟩) ∧
    (ok 0 = false → ok 1 = false → ok 2 = false →
      connectRetry ok = ⟨3, [3, 1], true, false⟩) := by
  refine ⟨fun h0 => ?_, fun h0 h1 => ?_, fun h0 h1 h2 => ?_,
    fun h0 h1 h2 => ?_⟩ <;>
      simp_all [connectRetry, connectAttempts]

/-- Witness for C3 (amended): failure then success on the second attempt. -/
theorem connect_retry_behaviour_witness :
    connectRetry (fun n => n == 1) = ⟨2, [3], true, true⟩ :=
  (connect_retry_behaviour fun n => n == 1).2.1 rfl rfl

/-- C7 counterexample: on a non-`Connected` response (here `Pong`),
`connect`'s handshake does not fail: it raises nothing and still returns
the client_id normally. -/
theorem connect_no_failure_on_unexpected :
    (connectHandshake "c" [("type", Json.str "Pong")]).raised = false ∧
    (connectHandshake "c" [("type", Json.str "Pong")]).returned = some "c" ∧
    (connectHandshake "c" [("type", Json.str "Pong")]).connected_ok = false :=
  ⟨rfl, rfl, rfl⟩

/-- C7 (amended): after a successful transport connection the client sends
exactly one `Connect{client_id}` request; it records success exactly when
the response's type is `Connected`, but on any other response it merely
prints a diagnostic and still completes normally, returning the client_id
(no exception). -/
theorem connect_handshake_behaviour (cid : String)
    (resp : List (String × Json)) :
    (connectHandshake cid resp).sent = [encodeRequest (.connect cid)] ∧
    (connectHandshake cid resp).raised = false ∧
    (connectHandshake cid resp).returned = some cid ∧
    ((connectHandshake cid resp).connected_ok = true ↔
      lookupField resp "type" = some (Json.str "Connected")) := by
  refine ⟨rfl, rfl, rfl, ?_⟩
  cases h : lookupField resp "type" with
  | none => simp [connectHandshake, h]
  | some j => cases j <;> simp [connectHandshake, h]

/-- Witness for C7 (amended): a `Connected` response is recognised. -/
theorem connect_handshake_behaviour_witness :
    (connectHandshake "c" [("type", Json.str "Connected"),
      ("daemon_version", Json.str "1.0")]).connected_ok = true :=
  (connect_handshake_behaviour "c" [("type", Json.str "Connected"),
    ("daemon_version", Json.str "1.0")]).2.2.2.mpr rfl

theorem demoRecv_le : ∀ (s : List (List Nat)) (k : Nat),
    (demoRecv s k).1.length ≤ k := by
  intro s k
  cases s with
  | nil => simp [demoRecv]
  | cons c rest => simpa [demoRecv] using List.length_take_le k c

theorem recv_exact_loop_length {σ : Type} (recv : σ → Nat → List Nat × σ)
    (hrecv : ∀ s k, (recv s k).1.length ≤ k) (n : Nat) :
    ∀ (s : σ) (data : List Nat), data.length ≤ n →
      ∀ out sOut, recv_exact_loop recv n s data = some (out, sOut) →
        out.length = n := by
  intro s data
  induction s, data using recv_exact_loop.induct recv n with
  | case1 s data hlt hnil =>
    intro hd out sOut heq
    rw [recv_exact_loop.eq_def, dif_pos hlt, dif_pos hnil] at heq
    exact absurd heq (by simp)
  | case2 s data hlt hnil ih =>
    intro hd out sOut heq
    rw [recv_exact_loop.eq_def, dif_pos hlt, dif_neg hnil] at heq
    refine ih ?_ out sOut heq
    have hb := hrecv s (n - data.length)
    simp only [List.length_append]
    omega
  | case3 s data hge =>
    intro hd out sOut heq
    rw [recv_exact_loop.eq_def, dif_neg hge] at heq
    simp only [Option.some.injEq, Prod.mk.injEq] at heq
    obtain ⟨rfl, rfl⟩ := heq
    omega

/-- C5: whenever every socket read returns at most the requested number of
bytes, `_recv_exact(n)` either fails (the stream ended with a zero-byte
read before `n` bytes accumulated) or returns exactly `n` bytes — never
fewer, never more; no partial frame is surfaced. -/
theorem recv_exact_all_or_nothing {σ : Type}
    (recv : σ → Nat → List Nat × σ)
    (hrecv : ∀ s k, (recv s k).1.length ≤ k) (n : Nat) (s : σ)
    (out : List Nat) (sOut : σ)
    (heq : recv_exact recv n s = some (out, sOut)) : out.length = n :=
  recv_exact_loop_length recv hrecv n s [] (by simp) out sOut heq

/-- Witness for C5: a two-byte read served in two one-byte chunks. -/
theorem recv_exact_all_or_nothing_witness : ([9, 7] : List Nat).length = 2 :=
  recv_exact_all_or_nothing demoRecv demoRecv_le 2 [[9], [7]] [9, 7] []
    (by simp [recv_exact, recv_exact_loop, demoRecv])

/-- C8: every Status, GetLogs and CallHierarchy request the client builds
carries a `request_id` field holding the correlation token generated at
request time (`str(uuid.uuid4())`, modelled as the parameter `rid`). -/
theorem non_connect_requests_carry_request_id (rid fp : String)
    (lines line col : Int) (wh : Option String) :
    requestIdOf (encodeRequest (.status rid)) = some (.str rid) ∧
    requestIdOf (encodeRequest (.getLogs rid lines)) = some (.str rid) ∧
    requestIdOf (encodeRequest (.callHierarchy rid fp line col wh)) =
      some (.str rid) :=
  ⟨rfl, rfl, rfl⟩

/-- C10: `get_logs` returns the empty list for every response whose type is
not `Logs` — including `Error` responses — raising nothing (the handler is
a total function), so a failed log query is indistinguishable from an empty
log; only a `Logs` response yields its entries. -/
theorem get_logs_swallows_errors (resp : List (String × Json)) :
    (lookupField resp "type" ≠ some (Json.str "Logs") →
      get_logs_handle resp = .arr []) ∧
    (lookupField resp "type" = some (Json.str "Logs") →
      get_logs_handle resp = (lookupField resp "entries").getD (.arr [])) := by
  constructor
  · intro hne
    unfold get_logs_handle
    cases hdec : lookupField resp "type" with
    | none => rfl
    | some j =>
      cases j with
      | str t =>
        have ht : t ≠ "Logs" := fun ht => hne (by rw [hdec, ht])
        simp [ht]
      | null => rfl
      | bool b => rfl
      | num m => rfl
      | arr xs => rfl
      | obj fs => rfl
  · intro hyes
    unfold get_logs_handle
    rw [hyes]
    simp

/-- Witness for C10: an `Error` response yields the empty list. -/
theorem get_logs_swallows_errors_witness :
    get_logs_handle [("type", Json.str "Error"),
      ("error", Json.str "boom")] = .arr [] :=
  (get_logs_swallows_errors [("type", Json.str "Error"),
    ("error", Json.str "boom")]).1 (by simp [lookupField])

/-- C6: the frame-receive operation fails with `FrameTooLarge` exactly when
the declared 4-byte big-endian length exceeds the configured maximum; the
failure happens whatever follows the prefix (no payload byte is needed or
consumed), and a declared length within the maximum never produces
`FrameTooLarge`. -/
theorem frame_too_large_guard (maxLen b0 b1 b2 b3 : Nat)
    (rest : List Nat) :
    (maxLen < unpack_be32 b0 b1 b2 b3 →
      receiveFrame maxLen (b0 :: b1 :: b2 :: b3 :: rest) =
        .error .frameTooLarge) ∧
    (unpack_be32 b0 b1 b2 b3 ≤ maxLen →
      receiveFrame maxLen (b0 :: b1 :: b2 :: b3 :: rest) ≠
        .error .frameTooLarge) := by
  constructor
  · intro hgt
    simp [receiveFrame, hgt]
  · intro hle
    simp only [receiveFrame]
    rw [if_neg (Nat.not_lt.mpr hle)]
    split <;> simp

/-- Witness for C6: declared length 3 against a maximum of 2. -/
theorem frame_too_large_guard_witness :
    receiveFrame 2 [0, 0, 0, 3] = .error .frameTooLarge :=
  (frame_too_large_guard 2 0 0 0 3 []).1 (by norm_num [unpack_be32])

theorem lookupEntry_none_not_mem
    (pool : List (PoolKey × LanguageServerEntry)) (k : PoolKey)
    (h : lookupEntry pool k = none) : k ∉ pool.map Prod.fst := by
  induction pool with
  | nil => simp
  | cons kv rest ih =>
    unfold lookupEntry at h
    by_cases hk : kv.1 = k
    · rw [if_pos hk] at h
      exact absurd h (by simp)
    · rw [if_neg hk] at h
      simp only [List.map_cons, List.mem_cons]
      rintro (hh | hh)
      · exact hk hh.symm
      · exact ih h hh

theorem acquire_keys_nodup (healthy : Nat → Bool) (k : PoolKey)
    (st : PoolState) (h : (st.1.map Prod.fst).Nodup) :
    (((acquire healthy k st).1).map Prod.fst).Nodup := by
  unfold acquire
  split
  next e he =>
    by_cases hh : healthy e.serverId
    · rw [if_pos hh]
      exact h
    · rw [if_neg hh]
      have hmap : (st.1.map fun kv =>
          if kv.1 = k then
            (kv.1, (⟨k.1, k.2, st.2⟩ : LanguageServerEntry))
          else kv).map Prod.fst = st.1.map Prod.fst := by
        rw [List.map_map]
        refine List.map_congr_left fun kv _ => ?_
        simp only [Function.comp_apply]
        split <;> rfl
      show ((st.1.map fun kv =>
          if kv.1 = k then
            (kv.1, (⟨k.1, k.2, st.2⟩ : LanguageServerEntry))
          else kv).map Prod.fst).Nodup
      rw [hmap]
      exact h
  next he =>
    have hk := lookupEntry_none_not_mem st.1 k he
    show (((k, (⟨k.1, k.2, st.2⟩ : LanguageServerEntry)) ::
      st.1).map Prod.fst).Nodup
    simp only [List.map_cons]
    exact List.nodup_cons.mpr ⟨hk, h⟩

theorem runAcquires_keys_nodup (healthy : Nat → Bool)
    (ops : List PoolKey) :
    ∀ st : PoolState, (st.1.map Prod.fst).Nodup →
      (((runAcquires healthy ops st).1).map Prod.fst).Nodup := by
  induction ops with
  | nil => intro st h; exact h
  | cons k rest ih =>
    intro st h
    exact ih (acquire healthy k st) (acquire_keys_nodup healthy k st h)

/-- C9: after any serialized interleaving of `acquire` calls starting from
the cold (empty) pool — every moment of a run is such a state, for the
corresponding prefix of the interleaving — the pool's key list has no
duplicates: at most one `LanguageServerEntry` (hence at most one live
subprocess) exists per (language, workspace_root) key, and no duplicate
spawn for the same key occurs. -/
theorem pool_at_most_one_entry_per_key (healthy : Nat → Bool)
    (ops : List PoolKey) (k : PoolKey) :
    (((runAcquires healthy ops ([], 0)).1).map Prod.fst).Nodup ∧
    ∀ e1 e2 : LanguageServerEntry,
      (k, e1) ∈ (runAcquires healthy ops ([], 0)).1 →
      (k, e2) ∈ (runAcquires healthy ops ([], 0)).1 → e1 = e2 := by
  have hnodup := runAcquires_keys_nodup healthy ops ([], 0) (by simp)
  refine ⟨hnodup, fun e1 e2 h1 h2 => ?_⟩
  have hpair := List.inj_on_of_nodup_map hnodup h1 h2 rfl
  exact congrArg Prod.snd hpair

/-- Witness for C9: a single acquire on the cold pool, queried back. -/
theorem pool_at_most_one_entry_per_key_witness :
    (⟨"go", "/w", 0⟩ : LanguageServerEntry) = ⟨"go", "/w", 0⟩ :=
  (pool_at_most_one_entry_per_key (fun _ => true) [("go", "/w")]
    ("go", "/w")).2 ⟨"go", "/w", 0⟩ ⟨"go", "/w", 0⟩
    (by simp [runAcquires, acquire, lookupEntry])
    (by simp [runAcquires, acquire, lookupEntry])

/-- C1: for every valid Message variant (request or response), decoding the
encoding yields the original message back: the `type`-tagged JSON object
built for a variant parses back to exactly that variant. -/
theorem message_roundtrip :
    (∀ r : Request, decodeRequest (encodeRequest r) = some r) ∧
    (∀ p : Response, decodeResponse (encodeResponse p) = some p) := by
  constructor
  · intro r
    cases r with
    | connect cid => rfl
    | status rid => rfl
    | ping rid => rfl
    | getLogs rid n => rfl
    | callHierarchy rid fp l c wh => cases wh <;> rfl
    | shutdown rid => rfl
  · intro p
    cases p <;> rfl

end Probe
